import Mathlib

/-!
Shallow embedding of the PixelCNN notebook (`pixelrnn.ipynb`): the masked
convolutions, the model assembled by `pixelRNN`, the loss/optimizer wiring,
and the two pixel-by-pixel generation procedures.  Helpers that the notebook
imports from `ops.py` / `utils.py` (the mask generator inside `conv2d`,
`binarize`, `occlude`) are not part of the repository snapshot and are
modelled from the specification; each such definition says so in its
doc comment.  Real-valued framework primitives with no exact rational
meaning (the sigmoid, the elementwise sigmoid cross-entropy, the optimizer's
parameter update) are taken as parameters, exactly as the notebook treats
them as external framework calls.
-/

namespace PixelCNN

/-- Mask type of a masked convolution: type "A" excludes the center pixel,
type "B" keeps it. -/
inductive MaskType
  | A
  | B
  deriving DecidableEq

/-- A 4-dimensional array (batch, row, column, channel) of rationals together
with its shape, standing for the notebook's `(batch, height, width, channel)`
numpy / TF tensors (the `use_gpu = True` layout that the generation loops
assume). -/
structure Tensor4 where
  batch : ℕ
  height : ℕ
  width : ℕ
  channel : ℕ
  val : ℕ → ℕ → ℕ → ℕ → ℚ

/-- The shape quadruple of a `Tensor4`. -/
def Tensor4.shape (t : Tensor4) : ℕ × ℕ × ℕ × ℕ :=
  (t.batch, t.height, t.width, t.channel)

/-! ### Hyperparameters (notebook cell `hyperparams`) -/

def p_batch_size : ℕ := 100

def p_hidden_dims : ℕ := 16

def p_recurrent_length : ℕ := 7

def p_out_hidden_dims : ℕ := 32

def p_out_recurrent_length : ℕ := 2

def p_grad_clip : ℚ := 1

def p_use_gpu : Bool := true

/-- The network hyperparameters that `pixelRNN` reads from `params`. -/
structure NetParams where
  hidden_dims : ℕ
  recurrent_length : ℕ
  out_hidden_dims : ℕ
  out_recurrent_length : ℕ

/-- The notebook's hyperparameter values. -/
def hp : NetParams :=
  ⟨p_hidden_dims, p_recurrent_length, p_out_hidden_dims, p_out_recurrent_length⟩

/-! ### Generation (cell defining `generate` and `generate_occlusions`) -/

/-- Modelled from the spec: `binarize` (imported from `utils.py`, which is not
in the snapshot) converts a probability to {0, 1} by thresholding at 0.5,
ties resolving to 0. -/
def binarize (x : ℚ) : ℚ := if 1 / 2 < x then 1 else 0

/-- Modelled from the spec: `occlude` (imported from `utils.py`, which is not
in the snapshot) seeds the canvas with the top `height / 2` rows of each
image and hides (zeroes) the bottom half. -/
def occlude (images : Tensor4) (height width : ℕ) : Tensor4 :=
  { batch := images.batch, height := height, width := width,
    channel := images.channel,
    val := fun b i j c => if i < height / 2 then images.val b i j c else 0 }

/-- One generation step at pixel `(i, j)`: run the model on the whole current
canvas (`next_sample = binarize(predict(sess, samples, inputs, output))`) and
overwrite only `samples[:, i, j]` with the binarized output there. -/
def genStep (predict : Tensor4 → Tensor4) (s : Tensor4) (i j : ℕ) : Tensor4 :=
  { s with
    val := fun b r c ch =>
      if r = i ∧ c = j then binarize ((predict s).val b r c ch)
      else s.val b r c ch }

/-- The canvas `generate` starts from: `np.zeros((100, height, width, 1),
dtype='float32')`.  The batch dimension is the literal 100 of the source, not
a parameter. -/
def genInit (height width : ℕ) : Tensor4 :=
  ⟨100, height, width, 1, fun _ _ _ _ => 0⟩

/-- Embeds `generate(sess, height, width, inputs, output)`: a canvas
`np.zeros((100, height, width, 1))` filled by the nested raster loop
`for i in range(height): for j in range(width)`.  Note the hardcoded batch
dimension 100: the function has no `batch_size` parameter. -/
def generate (predict : Tensor4 → Tensor4) (height width : ℕ) : Tensor4 :=
  (List.range height).foldl
    (fun s i => (List.range width).foldl (fun t j => genStep predict t i j) s)
    (genInit height width)

/-- Embeds `generate_occlusions(sess, height, width, inputs, output)`: the canvas is
`occlude(images, height, width)` — `images` being the surrounding notebook's
global variable (the function has no seed-image parameter of its own; here
that captured global is made an explicit argument) — and the loop runs
`for i in range(height//2, height): for j in range(0, width)`. -/
def generate_occlusions (predict : Tensor4 → Tensor4) (images : Tensor4)
    (height width : ℕ) : Tensor4 :=
  (List.range' (height / 2) (height - height / 2)).foldl
    (fun s i => (List.range width).foldl (fun t j => genStep predict t i j) s)
    (occlude images height width)

/-- The generation loop unrolled one pixel at a time: `genSteps predict i0 w s n`
is the canvas after the first `n` pixel steps of a raster scan of width `w`
that starts at row `i0`, column 0 (step `n` writes pixel
`(i0 + n / w, n % w)`). -/
def genSteps (predict : Tensor4 → Tensor4) (i0 w : ℕ) (s : Tensor4) : ℕ → Tensor4
  | 0 => s
  | n + 1 => genStep predict (genSteps predict i0 w s n) (i0 + n / w) (n % w)

/-- A model stub whose forward pass outputs the constant probability `q` at
every pixel (used to instantiate scenario claims). -/
def constPredict (q : ℚ) : Tensor4 → Tensor4 :=
  fun s => { s with val := fun _ _ _ _ => q }

/-- A concrete all-ones batch of 4×4 single-channel images (a stand-in for
the notebook's global `images` batch in concrete instantiations). -/
def onesT : Tensor4 := ⟨100, 4, 4, 1, fun _ _ _ _ => 1⟩

/-! ### Masked convolutions (`conv2d` imported from `ops.py`) and the model -/

/-- Modelled from the spec: the mask generator inside `ops.py`'s `conv2d`
(`ops.py` is not in the snapshot).  For a `kh × kw` kernel with center
`(kh / 2, kw / 2)` the mask keeps the rows above the center and, on the
center row, the positions strictly left of the center; type "B" additionally
keeps the center itself, type "A" excludes it.  The data is single-channel,
so the spec's cross-channel grouping refinement is a no-op and the mask does
not depend on the channel indices. -/
def maskVal (kh kw : ℕ) (t : MaskType) (a b : ℕ) : ℚ :=
  match t with
  | .A => if a < kh / 2 ∨ (a = kh / 2 ∧ b < kw / 2) then 1 else 0
  | .B => if a < kh / 2 ∨ (a = kh / 2 ∧ b ≤ kw / 2) then 1 else 0

/-- Position `(a, b)` comes strictly before `(ca, cb)` in raster order. -/
def rasterEarlier (a b ca cb : ℕ) : Prop :=
  a < ca ∨ (a = ca ∧ b < cb)

instance (a b ca cb : ℕ) : Decidable (rasterEarlier a b ca cb) := by
  unfold rasterEarlier
  infer_instance

/-- The spec's reference type-"B" mask: 1 at the center and at every
raster-earlier position, 0 at every raster-later position. -/
def refMaskB (kh kw a b : ℕ) : ℚ :=
  if (a = kh / 2 ∧ b = kw / 2) ∨ rasterEarlier a b (kh / 2) (kw / 2) then 1 else 0

/-- The spec's reference type-"A" mask: the type-"B" mask with the center
position additionally set to 0. -/
def refMaskA (kh kw a b : ℕ) : ℚ :=
  if a = kh / 2 ∧ b = kw / 2 then 0 else refMaskB kh kw a b

/-- A feature map: (row, column, channel) ↦ value.  Batch elements never mix
in any of the model's operations, so the model is embedded per batch
element. -/
abbrev Fmap := ℕ → ℕ → ℕ → ℚ

/-- Zero padding ("SAME" convolution): read `x` inside the `h × w` frame and
0 outside it. -/
def pad (h w : ℕ) (x : Fmap) (i j : ℤ) (c : ℕ) : ℚ :=
  if 0 ≤ i ∧ i < (h : ℤ) ∧ 0 ≤ j ∧ j < (w : ℤ) then x i.toNat j.toNat c else 0

/-- The weight tensor (kernel row, kernel column, in-channel, out-channel)
and bias vector owned by one convolution scope. -/
structure LayerW where
  weight : ℕ → ℕ → ℕ → ℕ → ℚ
  bias : ℕ → ℚ

/-- Modelled from the spec: `conv2d` of `ops.py` (not in the snapshot): the
mask is multiplied elementwise into the kernel weights, then a stride-1
"SAME"-padded convolution is applied and the bias added; no activation inside
the layer. -/
def conv2d (x : Fmap) (h w inC kh kw : ℕ) (t : MaskType) (L : LayerW) : Fmap :=
  fun i j o =>
    L.bias o +
      ∑ a ∈ Finset.range kh, ∑ bb ∈ Finset.range kw, ∑ c ∈ Finset.range inC,
        maskVal kh kw t a bb * L.weight a bb c o *
          pad h w x ((i : ℤ) + (a : ℤ) - ((kh / 2 : ℕ) : ℤ))
            ((j : ℤ) + (bb : ℤ) - ((kw / 2 : ℕ) : ℤ)) c

/-- Elementwise rectified linear activation (`tf.nn.relu`). -/
def reluT (x : Fmap) : Fmap := fun i j c => max 0 (x i j c)

/-- Elementwise application of the framework's sigmoid (`tf.nn.sigmoid`),
taken as an abstract scalar function. -/
def sigmoidT (sigmoid : ℚ → ℚ) (x : Fmap) : Fmap := fun i j c => sigmoid (x i j c)

/-- The parameters registered under the notebook's variable scopes:
`conv_inputs`, `CONV%d`, `CONV_OUT%d`, `conv2d_out_logits`. -/
structure ModelWeights where
  conv_inputs : LayerW
  conv : ℕ → LayerW
  conv_out : ℕ → LayerW
  out_logits : LayerW

/-- The `pixelRNN` network of the notebook: a 7×7 type-"A" masked convolution
with `hidden_dims` channels, `recurrent_length` type-"B" 1×1 convolutions
with 3 channels, `out_recurrent_length` type-"B" 1×1 convolutions with
`out_hidden_dims` channels each wrapped in `tf.nn.relu`, a final type-"B"
1×1 convolution with one channel, and the elementwise sigmoid of those
logits.  Returns `(output, conv2d_out_logits)`. -/
def pixelRNN (height width channel : ℕ) (params : NetParams) (W : ModelWeights)
    (sigmoid : ℚ → ℚ) (x : Fmap) : Fmap × Fmap :=
  let conv_inputs := conv2d x height width channel 7 7 .A W.conv_inputs
  let main := (List.range params.recurrent_length).foldl
    (fun (acc : Fmap × ℕ) idx =>
      (conv2d acc.1 height width acc.2 1 1 .B (W.conv idx), 3))
    (conv_inputs, params.hidden_dims)
  let outHid := (List.range params.out_recurrent_length).foldl
    (fun (acc : Fmap × ℕ) idx =>
      (reluT (conv2d acc.1 height width acc.2 1 1 .B (W.conv_out idx)),
        params.out_hidden_dims))
    main
  let conv2d_out_logits := conv2d outHid.1 height width outHid.2 1 1 .B W.out_logits
  (sigmoidT sigmoid conv2d_out_logits, conv2d_out_logits)

/-- The spec's description of the middle stack: `n` type-"B" 1×1 masked
convolutions with 3 output channels and no activation between them (layer 0
reads `inC` channels, every later layer reads the previous layer's 3). -/
def mainStackSpec (height width : ℕ) (Wc : ℕ → LayerW) (inC : ℕ) (x : Fmap) :
    ℕ → Fmap
  | 0 => x
  | n + 1 => conv2d (mainStackSpec height width Wc inC x n) height width
      (if n = 0 then inC else 3) 1 1 .B (Wc n)

/-- The spec's description of the output stack: `n` type-"B" 1×1 masked
convolutions with `outC` output channels, each followed by a rectified-linear
activation. -/
def outStackSpec (height width : ℕ) (Wo : ℕ → LayerW) (inC outC : ℕ) (x : Fmap) :
    ℕ → Fmap
  | 0 => x
  | n + 1 => reluT (conv2d (outStackSpec height width Wo inC outC x n) height width
      (if n = 0 then inC else outC) 1 1 .B (Wo n))

/-! ### Input placeholder layout (cell `pixelRNN`, first two lines) -/

/-- The placeholder shape of the model input, exactly as `pixelRNN` builds
it: `[None, height, width, channel] if params.use_gpu else
[None, channel, height, width]` (`none` is the unconstrained batch axis). -/
def input_shape (use_gpu : Bool) (height width channel : ℕ) : List (Option ℕ) :=
  if use_gpu then [none, some height, some width, some channel]
  else [none, some channel, some height, some width]

/-- The shape of the canvas both generation loops feed to the model:
`np.zeros((100, height, width, 1))`, indexed `Canvas[:, i, j]` with axis 1
as the row. -/
def genCanvasShape (height width : ℕ) : List (Option ℕ) :=
  [some 100, some height, some width, some 1]

/-- Whether an actual array shape fits a placeholder shape: dimensions match
pointwise, an unconstrained (`none`) placeholder axis fits anything. -/
def shapeCompatible : List (Option ℕ) → List (Option ℕ) → Bool
  | [], [] => true
  | none :: ps, _ :: ds => shapeCompatible ps ds
  | some a :: ps, some b :: ds => a == b && shapeCompatible ps ds
  | _, _ => false

/-! ### Loss and optimizer wiring (cell `loss` / `optim`) -/

/-- Embeds `tf.reduce_mean` over a 4-d tensor: the sum of all entries divided by the
number of entries. -/
def reduce_mean (t : Tensor4) : ℚ :=
  (∑ b ∈ Finset.range t.batch, ∑ i ∈ Finset.range t.height,
    ∑ j ∈ Finset.range t.width, ∑ c ∈ Finset.range t.channel, t.val b i j c) /
    ((t.batch : ℚ) * t.height * t.width * t.channel)

/-- Embeds `tf.nn.sigmoid_cross_entropy_with_logits(logits, labels)` as an
elementwise map, with the framework's scalar cross-entropy `xent` abstract
(it has no exact rational value). -/
def sigmoid_cross_entropy_with_logits (xent : ℚ → ℚ → ℚ)
    (logits labels : Tensor4) : Tensor4 :=
  { logits with
    val := fun b i j c => xent (logits.val b i j c) (labels.val b i j c) }

/-- The notebook's `loss` tensor: the mean of the elementwise sigmoid
cross-entropy between the logits and the input images. -/
def lossT (xent : ℚ → ℚ → ℚ) (logits inputs : Tensor4) : ℚ :=
  reduce_mean (sigmoid_cross_entropy_with_logits xent logits inputs)

/-- Embeds `tf.clip_by_value x lo hi`. -/
def clip_by_value (x lo hi : ℚ) : ℚ := min (max x lo) hi

/-- The notebook's `new_grads_and_vars`: every gradient tensor clipped
elementwise to `[-grad_clip, grad_clip]`, each variable kept with its own
gradient.  Gradients are flat `ℕ → ℚ` tensors, variables are abstract
identifiers. -/
def new_grads_and_vars (grad_clip : ℚ) (grads_and_vars : List ((ℕ → ℚ) × ℕ)) :
    List ((ℕ → ℚ) × ℕ) :=
  grads_and_vars.map
    (fun gv => (fun k => clip_by_value (gv.1 k) (-grad_clip) grad_clip, gv.2))

/-- The notebook's `optim` op:
`optimizer.apply_gradients(new_grads_and_vars)`, with the optimizer's update
`apply_gradients` abstract (RMSProp internals are the framework's). -/
def optim {α : Type} (apply_gradients : List ((ℕ → ℚ) × ℕ) → α) (grad_clip : ℚ)
    (grads_and_vars : List ((ℕ → ℚ) × ℕ)) : α :=
  apply_gradients (new_grads_and_vars grad_clip grads_and_vars)

/-- Two feature maps agree at the single point `(i, j)` on every channel. -/
def pointAgree (x y : Fmap) (i j : ℕ) : Prop := ∀ ch, x i j ch = y i j ch

/-- All-zero weights and biases for one layer (concrete instantiations). -/
def zeroW : LayerW := ⟨fun _ _ _ _ => 0, fun _ => 0⟩

/-- All-zero model parameters (concrete instantiations). -/
def zeroModelW : ModelWeights := ⟨zeroW, fun _ => zeroW, fun _ => zeroW, zeroW⟩

/-- The all-zero input image (concrete instantiations). -/
def xZero : Fmap := fun _ _ _ => 0

/-- An input image that differs from `xZero` only on rows 3 and below
(concrete instantiations: pixels raster-later than, e.g., position (1, 1)). -/
def yFuture : Fmap := fun r _ _ => if 3 ≤ r then 1 else 0

/-- A concrete stand-in for the framework's scalar sigmoid cross-entropy
(concrete instantiations only; the claims treat `xent` abstractly). -/
def xentW : ℚ → ℚ → ℚ := fun x z => x - z

/-- A concrete one-variable gradient list (concrete instantiations). -/
def gvsW : List ((ℕ → ℚ) × ℕ) := [(fun _ => 5, 0)]

/-- A concrete 1×1×1×1 zero tensor (concrete instantiations). -/
def zeroT1 : Tensor4 := ⟨1, 1, 1, 1, fun _ _ _ _ => 0⟩

/-! ### Bridging the nested `for` loops to the pixel-indexed unrolling -/

lemma genStep_shape (predict : Tensor4 → Tensor4) (s : Tensor4) (i j : ℕ) :
    (genStep predict s i j).shape = s.shape := rfl

lemma genSteps_shape (predict : Tensor4 → Tensor4) (i0 w : ℕ) (s : Tensor4) :
    ∀ n, (genSteps predict i0 w s n).shape = s.shape := by
  intro n
  induction n with
  | zero => rfl
  | succ n ih => simpa [genSteps, genStep_shape] using ih

lemma rowFold_eq_genSteps (predict : Tensor4 → Tensor4) (i0 w : ℕ) (s : Tensor4) :
    ∀ j, j ≤ w →
      (List.range j).foldl (fun t jj => genStep predict t i0 jj) s =
        genSteps predict i0 w s j := by
  intro j
  induction j with
  | zero => intro _; rfl
  | succ j ih =>
    intro hj
    rw [List.range_succ, List.foldl_append, ih (Nat.le_of_succ_le hj)]
    have hjw : j < w := hj
    simp [genSteps, Nat.div_eq_of_lt hjw, Nat.mod_eq_of_lt hjw]

lemma genSteps_shift (predict : Tensor4 → Tensor4) (i0 w : ℕ) (hw : 0 < w)
    (s : Tensor4) :
    ∀ n, genSteps predict i0 w s (w + n) =
      genSteps predict (i0 + 1) w (genSteps predict i0 w s w) n := by
  intro n
  induction n with
  | zero => rfl
  | succ n ih =>
    have hdiv : (w + n) / w = 1 + n / w := by
      rw [Nat.add_comm w n, Nat.add_div_right _ hw, Nat.add_comm]
    have hmod : (w + n) % w = n % w := by
      rw [Nat.add_comm w n, Nat.add_mod_right]
    have : w + (n + 1) = (w + n) + 1 := by omega
    rw [this]
    show genStep predict (genSteps predict i0 w s (w + n)) (i0 + (w + n) / w) ((w + n) % w) = _
    rw [ih, hdiv, hmod]
    show _ = genStep predict (genSteps predict (i0 + 1) w (genSteps predict i0 w s w) n)
      ((i0 + 1) + n / w) (n % w)
    have harith : i0 + (1 + n / w) = (i0 + 1) + n / w := by omega
    rw [harith]

lemma rangeFold_eq_genSteps (predict : Tensor4 → Tensor4) (w : ℕ) :
    ∀ m i0 s, (List.range' i0 m).foldl
        (fun s i => (List.range w).foldl (fun t j => genStep predict t i j) s) s =
      genSteps predict i0 w s (m * w) := by
  intro m
  induction m with
  | zero =>
    intro i0 s
    rw [Nat.zero_mul]
    rfl
  | succ m ih =>
    intro i0 s
    rcases Nat.eq_zero_or_pos w with hw | hw
    · subst hw
      have hz : ∀ k j0 s', (List.range' j0 k).foldl
          (fun s i => (List.range 0).foldl (fun t j => genStep predict t i j) s) s' = s' := by
        intro k
        induction k with
        | zero => intro j0 s'; rfl
        | succ k ihk =>
          intro j0 s'
          rw [List.range'_succ]
          exact ihk (j0 + 1) s'
      simp only [Nat.mul_zero]
      exact hz (m + 1) i0 s
    · rw [List.range'_succ, List.foldl_cons]
      rw [ih (i0 + 1)]
      rw [rowFold_eq_genSteps predict i0 w s w (Nat.le_refl w)]
      rw [← genSteps_shift predict i0 w hw s (m * w)]
      have : w + m * w = (m + 1) * w := by ring
      rw [this]

lemma generate_eq_genSteps (predict : Tensor4 → Tensor4) (height width : ℕ) :
    generate predict height width =
      genSteps predict 0 width (genInit height width) (height * width) := by
  unfold generate
  rw [List.range_eq_range' height]
  exact rangeFold_eq_genSteps predict width height 0 _

lemma generate_occlusions_eq_genSteps (predict : Tensor4 → Tensor4)
    (images : Tensor4) (height width : ℕ) :
    generate_occlusions predict images height width =
      genSteps predict (height / 2) width (occlude images height width)
        ((height - height / 2) * width) := by
  unfold generate_occlusions
  exact rangeFold_eq_genSteps predict width (height - height / 2) (height / 2) _

/-! ### The raster-scan invariant of the generation loops -/

/-- Pixels on rows above the scan's starting row are never written. -/
lemma genSteps_val_above (predict : Tensor4 → Tensor4) (i0 w : ℕ) (s : Tensor4)
    (b r c ch : ℕ) (hr : r < i0) :
    ∀ n, (genSteps predict i0 w s n).val b r c ch = s.val b r c ch := by
  intro n
  induction n with
  | zero => rfl
  | succ n ih =>
    show (genStep predict (genSteps predict i0 w s n) (i0 + n / w) (n % w)).val b r c ch = _
    unfold genStep
    simp only
    rw [if_neg, ih]
    rintro ⟨hre, -⟩
    rw [hre] at hr
    exact absurd hr (Nat.not_lt.mpr (Nat.le_add_right _ _))

/-- In a scan starting at row 0, a pixel whose raster index is at least `n`
still holds its initial value after `n` steps. -/
lemma genSteps_val_untouched (predict : Tensor4 → Tensor4) (w : ℕ) (s : Tensor4)
    (b r c ch : ℕ) (_hc : c < w) :
    ∀ n, n ≤ r * w + c → (genSteps predict 0 w s n).val b r c ch = s.val b r c ch := by
  intro n
  induction n with
  | zero => intro _; rfl
  | succ n ih =>
    intro hn
    show (genStep predict (genSteps predict 0 w s n) (0 + n / w) (n % w)).val b r c ch = _
    unfold genStep
    simp only
    rw [if_neg, ih (by omega)]
    rintro ⟨hre, hce⟩
    have hdm : w * (n / w) + n % w = n := Nat.div_add_mod n w
    have hrw : r * w = w * (n / w) := by
      rw [Nat.mul_comm]
      exact congrArg (w * ·) (by omega)
    omega

/-- In a scan starting at row 0, a pixel whose raster index `r * w + c` is
below `n` holds, after `n` steps, the binarized model output computed on the
canvas as it stood just before that pixel's own step. -/
lemma genSteps_val_written (predict : Tensor4 → Tensor4) (w : ℕ) (s : Tensor4)
    (b r c ch : ℕ) (hc : c < w) :
    ∀ n, r * w + c < n →
      (genSteps predict 0 w s n).val b r c ch =
        binarize ((predict (genSteps predict 0 w s (r * w + c))).val b r c ch) := by
  intro n
  induction n with
  | zero => intro h; exact absurd h (Nat.not_lt_zero _)
  | succ n ih =>
    intro hn
    show (genStep predict (genSteps predict 0 w s n) (0 + n / w) (n % w)).val b r c ch = _
    rcases Nat.lt_or_ge (r * w + c) n with hlt | hge
    · unfold genStep
      simp only
      rw [if_neg, ih hlt]
      rintro ⟨hre, hce⟩
      have hdm : w * (n / w) + n % w = n := Nat.div_add_mod n w
      have hrw : r * w = w * (n / w) := by
        rw [Nat.mul_comm]
        exact congrArg (w * ·) (by omega)
      omega
    · have heq : r * w + c = n := by omega
      have hdiv : n / w = r := by
        rw [← heq, Nat.add_comm, Nat.add_mul_div_right _ _ (by omega : 0 < w),
          Nat.div_eq_of_lt hc]
        omega
      have hmod : n % w = c := by
        rw [← heq, Nat.add_comm, Nat.add_mul_mod_self_right, Nat.mod_eq_of_lt hc]
      unfold genStep
      simp only
      rw [if_pos ⟨by omega, hmod.symm⟩, heq]

/-! ### The layer stacks of `pixelRNN` as explicit recursions -/

lemma mainFold_eq (h w : ℕ) (Wc : ℕ → LayerW) (inC : ℕ) (x : Fmap) :
    ∀ n, (List.range n).foldl
        (fun (acc : Fmap × ℕ) idx => (conv2d acc.1 h w acc.2 1 1 .B (Wc idx), 3))
        (x, inC) =
      (mainStackSpec h w Wc inC x n, if n = 0 then inC else 3) := by
  intro n
  induction n with
  | zero => rfl
  | succ n ih =>
    rw [List.range_succ, List.foldl_append, ih]
    simp only [List.foldl_cons, List.foldl_nil, mainStackSpec]
    rw [if_neg (Nat.succ_ne_zero n)]

lemma outFold_eq (h w : ℕ) (Wo : ℕ → LayerW) (inC outC : ℕ) (x : Fmap) :
    ∀ n, (List.range n).foldl
        (fun (acc : Fmap × ℕ) idx =>
          (reluT (conv2d acc.1 h w acc.2 1 1 .B (Wo idx)), outC))
        (x, inC) =
      (outStackSpec h w Wo inC outC x n, if n = 0 then inC else outC) := by
  intro n
  induction n with
  | zero => rfl
  | succ n ih =>
    rw [List.range_succ, List.foldl_append, ih]
    simp only [List.foldl_cons, List.foldl_nil, outStackSpec]
    rw [if_neg (Nat.succ_ne_zero n)]

/-- Rewrites `pixelRNN` as the spec's explicit composition, when both stack lengths
are positive (they are 7 and 2 in the notebook). -/
lemma pixelRNN_eq_stacks (height width channel : ℕ) (params : NetParams)
    (W : ModelWeights) (sigmoid : ℚ → ℚ) (x : Fmap)
    (hrec : params.recurrent_length ≠ 0)
    (hout : params.out_recurrent_length ≠ 0) :
    pixelRNN height width channel params W sigmoid x =
      (sigmoidT sigmoid (conv2d
          (outStackSpec height width W.conv_out 3 params.out_hidden_dims
            (mainStackSpec height width W.conv params.hidden_dims
              (conv2d x height width channel 7 7 .A W.conv_inputs)
              params.recurrent_length)
            params.out_recurrent_length)
          height width params.out_hidden_dims 1 1 .B W.out_logits),
       conv2d
          (outStackSpec height width W.conv_out 3 params.out_hidden_dims
            (mainStackSpec height width W.conv params.hidden_dims
              (conv2d x height width channel 7 7 .A W.conv_inputs)
              params.recurrent_length)
            params.out_recurrent_length)
          height width params.out_hidden_dims 1 1 .B W.out_logits) := by
  simp only [pixelRNN]
  rw [mainFold_eq, if_neg hrec, outFold_eq, if_neg hout]

/-! ### Causality of the masked layers -/

lemma pad_inbounds (h w : ℕ) (x : Fmap) (i j c : ℕ) (hi : i < h) (hj : j < w) :
    pad h w x (i : ℤ) (j : ℤ) c = x i j c := by
  unfold pad
  rw [if_pos]
  · simp
  · refine ⟨Int.ofNat_nonneg i, ?_, Int.ofNat_nonneg j, ?_⟩
    · exact_mod_cast hi
    · exact_mod_cast hj

/-- A type-"A" masked convolution reads only raster-earlier pixels: if two
inputs agree at every in-frame pixel strictly before `(i, j)` in raster
order, the convolutions agree at `(i, j)` on every output channel. -/
lemma conv2d_A_agree (h w inC kh kw : ℕ) (L : LayerW) (x y : Fmap) (i j : ℕ)
    (hagree : ∀ r c ch, r < h → c < w → rasterEarlier r c i j → x r c ch = y r c ch) :
    pointAgree (conv2d x h w inC kh kw .A L) (conv2d y h w inC kh kw .A L) i j := by
  intro o
  unfold conv2d
  congr 1
  apply Finset.sum_congr rfl
  intro a _
  apply Finset.sum_congr rfl
  intro bb _
  apply Finset.sum_congr rfl
  intro c _
  by_cases hm : a < kh / 2 ∨ (a = kh / 2 ∧ bb < kw / 2)
  · congr 1
    unfold pad
    by_cases hin : 0 ≤ (i : ℤ) + (a : ℤ) - ((kh / 2 : ℕ) : ℤ) ∧
        (i : ℤ) + (a : ℤ) - ((kh / 2 : ℕ) : ℤ) < (h : ℤ) ∧
        0 ≤ (j : ℤ) + (bb : ℤ) - ((kw / 2 : ℕ) : ℤ) ∧
        (j : ℤ) + (bb : ℤ) - ((kw / 2 : ℕ) : ℤ) < (w : ℤ)
    · rw [if_pos hin, if_pos hin]
      obtain ⟨h1, h2, h3, h4⟩ := hin
      apply hagree
      · omega
      · omega
      · unfold rasterEarlier
        rcases hm with hm | ⟨hm1, hm2⟩
        · left; omega
        · rcases Nat.lt_or_ge a (kh / 2) with ha | ha
          · left; omega
          · right; omega
    · rw [if_neg hin, if_neg hin]
  · simp only [maskVal]
    rw [if_neg hm]
    simp

/-- A 1×1 masked convolution is pointwise: its output at `(i, j)` reads only
its input at `(i, j)`. -/
lemma conv2d_1x1_agree (h w inC : ℕ) (t : MaskType) (L : LayerW) (x y : Fmap)
    (i j : ℕ) (hi : i < h) (hj : j < w) (hagree : pointAgree x y i j) :
    pointAgree (conv2d x h w inC 1 1 t L) (conv2d y h w inC 1 1 t L) i j := by
  intro o
  unfold conv2d
  congr 1
  simp only [Finset.sum_range_one]
  apply Finset.sum_congr rfl
  intro c _
  congr 1
  have hz : ((1 / 2 : ℕ) : ℤ) = 0 := by norm_num
  rw [hz]
  have hi' : (i : ℤ) + 0 - 0 = (i : ℤ) := by ring
  have hj' : (j : ℤ) + 0 - 0 = (j : ℤ) := by ring
  rw [hi', hj', pad_inbounds h w x i j c hi hj, pad_inbounds h w y i j c hi hj]
  exact hagree c

lemma reluT_agree (x y : Fmap) (i j : ℕ) (hagree : pointAgree x y i j) :
    pointAgree (reluT x) (reluT y) i j := by
  intro ch
  unfold reluT
  rw [hagree ch]

/-! ### Raster-index arithmetic and remaining helpers -/

lemma rasterIdx_lt (w i j r c : ℕ) (hj : j < w) (h : rasterEarlier i j r c) :
    i * w + j < r * w + c := by
  rcases h with h | ⟨h1, h2⟩
  · have h3 : (i + 1) * w ≤ r * w := Nat.mul_le_mul_right w h
    have h5 : (i + 1) * w = i * w + w := by ring
    omega
  · subst h1
    omega

lemma rasterIdx_le (w i j r c : ℕ) (hc : c < w)
    (h : rasterEarlier r c i j ∨ (r = i ∧ c = j)) : r * w + c ≤ i * w + j := by
  rcases h with h | ⟨h1, h2⟩
  · exact Nat.le_of_lt (rasterIdx_lt w r c i j hc h)
  · subst h1
    subst h2
    exact Nat.le_refl _

lemma rasterIdx_bound (h w r c : ℕ) (hr : r < h) (hc : c < w) :
    r * w + c < h * w := by
  have h3 : (r + 1) * w ≤ h * w := Nat.mul_le_mul_right w hr
  have h5 : (r + 1) * w = r * w + w := by ring
  omega

lemma generate_shape (predict : Tensor4 → Tensor4) (height width : ℕ) :
    (generate predict height width).shape = (100, height, width, 1) := by
  rw [generate_eq_genSteps, genSteps_shape]
  rfl

/-- Rewrites `pixelRNN` through the explicit stacks, with the channel
bookkeeping left as `if`s (no positivity assumptions). -/
lemma pixelRNN_eq_stacks_general (height width channel : ℕ) (params : NetParams)
    (W : ModelWeights) (sigmoid : ℚ → ℚ) (x : Fmap) :
    pixelRNN height width channel params W sigmoid x =
      (sigmoidT sigmoid (conv2d
          (outStackSpec height width W.conv_out
            (if params.recurrent_length = 0 then params.hidden_dims else 3)
            params.out_hidden_dims
            (mainStackSpec height width W.conv params.hidden_dims
              (conv2d x height width channel 7 7 .A W.conv_inputs)
              params.recurrent_length)
            params.out_recurrent_length)
          height width
          (if params.out_recurrent_length = 0 then
            (if params.recurrent_length = 0 then params.hidden_dims else 3)
          else params.out_hidden_dims) 1 1 .B W.out_logits),
       conv2d
          (outStackSpec height width W.conv_out
            (if params.recurrent_length = 0 then params.hidden_dims else 3)
            params.out_hidden_dims
            (mainStackSpec height width W.conv params.hidden_dims
              (conv2d x height width channel 7 7 .A W.conv_inputs)
              params.recurrent_length)
            params.out_recurrent_length)
          height width
          (if params.out_recurrent_length = 0 then
            (if params.recurrent_length = 0 then params.hidden_dims else 3)
          else params.out_hidden_dims) 1 1 .B W.out_logits) := by
  simp only [pixelRNN]
  rw [mainFold_eq, outFold_eq]

lemma mainStackSpec_agree (h w : ℕ) (Wc : ℕ → LayerW) (inC : ℕ) (x y : Fmap)
    (i j : ℕ) (hi : i < h) (hj : j < w) (hagree : pointAgree x y i j) :
    ∀ n, pointAgree (mainStackSpec h w Wc inC x n)
      (mainStackSpec h w Wc inC y n) i j := by
  intro n
  induction n with
  | zero => exact hagree
  | succ n ih =>
    show pointAgree (conv2d (mainStackSpec h w Wc inC x n) h w _ 1 1 .B (Wc n))
      (conv2d (mainStackSpec h w Wc inC y n) h w _ 1 1 .B (Wc n)) i j
    exact conv2d_1x1_agree h w _ .B (Wc n) _ _ i j hi hj ih

lemma outStackSpec_agree (h w : ℕ) (Wo : ℕ → LayerW) (inC outC : ℕ) (x y : Fmap)
    (i j : ℕ) (hi : i < h) (hj : j < w) (hagree : pointAgree x y i j) :
    ∀ n, pointAgree (outStackSpec h w Wo inC outC x n)
      (outStackSpec h w Wo inC outC y n) i j := by
  intro n
  induction n with
  | zero => exact hagree
  | succ n ih =>
    show pointAgree
      (reluT (conv2d (outStackSpec h w Wo inC outC x n) h w _ 1 1 .B (Wo n)))
      (reluT (conv2d (outStackSpec h w Wo inC outC y n) h w _ 1 1 .B (Wo n))) i j
    exact reluT_agree _ _ i j (conv2d_1x1_agree h w _ .B (Wo n) _ _ i j hi hj ih)

/-! ### Claim theorems -/

/-- C2: in `generate` the canvas is filled strictly in raster order.  After
processing pixel `(i, j)` (i.e. after `i * width + j + 1` pixel steps), every
position strictly after `(i, j)` in raster order still holds its initial
zero value, and every position at or before `(i, j)` holds the binarized
model output computed when that position itself was processed — which is
also its value in the final canvas returned by `generate`. -/
theorem claim_C2_raster_order_fill (predict : Tensor4 → Tensor4)
    (height width i j b r c ch : ℕ) (_hi : i < height) (hj : j < width)
    (hr : r < height) (hc : c < width) :
    (rasterEarlier i j r c →
      (genSteps predict 0 width (genInit height width)
        (i * width + j + 1)).val b r c ch = 0) ∧
    (rasterEarlier r c i j ∨ (r = i ∧ c = j) →
      (genSteps predict 0 width (genInit height width)
          (i * width + j + 1)).val b r c ch =
        binarize ((predict (genSteps predict 0 width (genInit height width)
          (r * width + c))).val b r c ch) ∧
      (genSteps predict 0 width (genInit height width)
          (i * width + j + 1)).val b r c ch =
        (generate predict height width).val b r c ch) := by
  constructor
  · intro hearly
    have hlt := rasterIdx_lt width i j r c hj hearly
    exact genSteps_val_untouched predict width (genInit height width) b r c ch hc
      (i * width + j + 1) (by omega)
  · intro hle
    have hidx := rasterIdx_le width i j r c hc hle
    have h1 := genSteps_val_written predict width (genInit height width) b r c ch hc
      (i * width + j + 1) (by omega)
    have h2 := genSteps_val_written predict width (genInit height width) b r c ch hc
      (height * width) (rasterIdx_bound height width r c hr hc)
    rw [generate_eq_genSteps]
    exact ⟨h1, h1.trans h2.symm⟩

/-- Witness for C2: on a 2×2 canvas with a constant-0.9 model, after
processing pixel (0, 1) the raster-later pixel (1, 0) still holds its initial
zero. -/
theorem claim_C2_witness :
    ((0 < 2) ∧ (1 < 2) ∧ (1 < 2) ∧ (0 < 2) ∧ rasterEarlier 0 1 1 0) ∧
    (genSteps (constPredict (9/10)) 0 2 (genInit 2 2)
      (0 * 2 + 1 + 1)).val 0 1 0 0 = 0 :=
  ⟨⟨by decide, by decide, by decide, by decide, by decide⟩,
    (claim_C2_raster_order_fill (constPredict (9/10)) 2 2 0 1 0 1 0 0
      (by decide) (by decide) (by decide) (by decide)).1 (by decide)⟩

/-- C5: in `generate_occlusions` every canvas row with index below
`height / 2` is never overwritten: at every point during the loop (any number
`n` of completed pixel steps) and in the final result, those rows hold the
corresponding rows of the seeded images (the loop regenerates only rows
`height / 2` and below). -/
theorem claim_C5_top_rows_never_overwritten (predict : Tensor4 → Tensor4)
    (images : Tensor4) (height width n b r c ch : ℕ) (hr : r < height / 2) :
    (genSteps predict (height / 2) width (occlude images height width)
        n).val b r c ch = images.val b r c ch ∧
    (generate_occlusions predict images height width).val b r c ch =
      images.val b r c ch := by
  have hocc : (occlude images height width).val b r c ch = images.val b r c ch := by
    show (if r < height / 2 then images.val b r c ch else 0) = images.val b r c ch
    rw [if_pos hr]
  constructor
  · rw [genSteps_val_above predict (height / 2) width (occlude images height width)
      b r c ch hr n, hocc]
  · rw [generate_occlusions_eq_genSteps,
      genSteps_val_above predict (height / 2) width (occlude images height width)
        b r c ch hr _, hocc]

/-- Witness for C5: with all-ones 4×4 seed images and a constant-0.9 model,
pixel (1, 2) of the canvas equals the seed value 1 after 3 loop steps and in
the final result. -/
theorem claim_C5_witness :
    (1 < 4 / 2) ∧
    ((genSteps (constPredict (9/10)) (4 / 2) 4 (occlude onesT 4 4)
        3).val 0 1 2 0 = onesT.val 0 1 2 0 ∧
      (generate_occlusions (constPredict (9/10)) onesT 4 4).val 0 1 2 0 =
        onesT.val 0 1 2 0) :=
  ⟨by decide, claim_C5_top_rows_never_overwritten (constPredict (9/10)) onesT
    4 4 3 0 1 2 0 (by decide)⟩

/-- C6 counterexample: `generate_occlusions` does not initialize its canvas
to a copy of a caller-supplied seed argument.  With the ambient images batch
all ones, the canvas it actually starts the loop from —
`occlude(images, 4, 4)` of the notebook-global batch — is 0 at row 2 where
the images hold 1. -/
theorem claim_C6_counterexample :
    (occlude onesT 4 4).val 0 2 0 0 = 0 ∧ onesT.val 0 2 0 0 = 1 ∧
    (occlude onesT 4 4).val 0 2 0 0 ≠ onesT.val 0 2 0 0 := by
  refine ⟨rfl, rfl, ?_⟩
  show (0 : ℚ) ≠ 1
  norm_num

/-- C6 corrected: `generate_occlusions` has no seed-image parameter; the
canvas it iterates on is `occlude(images, height, width)` built from the
surrounding notebook's global `images` batch: rows above `height / 2` are
copied from that global batch (and are returned unchanged), rows at or below
`height / 2` start zeroed rather than copied. -/
theorem claim_C6_amended_global_occluded_init (predict : Tensor4 → Tensor4)
    (images : Tensor4) (height width b i j ch : ℕ) :
    (i < height / 2 →
      (occlude images height width).val b i j ch = images.val b i j ch ∧
      (generate_occlusions predict images height width).val b i j ch =
        images.val b i j ch) ∧
    (height / 2 ≤ i → (occlude images height width).val b i j ch = 0) := by
  constructor
  · intro hlt
    refine ⟨?_, ?_⟩
    · show (if i < height / 2 then images.val b i j ch else 0) = images.val b i j ch
      rw [if_pos hlt]
    · rw [generate_occlusions_eq_genSteps,
        genSteps_val_above predict (height / 2) width (occlude images height width)
          b i j ch hlt _]
      show (if i < height / 2 then images.val b i j ch else 0) = images.val b i j ch
      rw [if_pos hlt]
  · intro hge
    show (if i < height / 2 then images.val b i j ch else 0) = 0
    rw [if_neg (Nat.not_lt.mpr hge)]

/-- Witness for the corrected C6 at a concrete instance: row 1 of the canvas
is the global batch's row 1, row 2 starts zeroed. -/
theorem claim_C6_witness :
    ((1 < 4 / 2) ∧
      ((occlude onesT 4 4).val 0 1 0 0 = onesT.val 0 1 0 0 ∧
        (generate_occlusions (constPredict (1/10)) onesT 4 4).val 0 1 0 0 =
          onesT.val 0 1 0 0)) ∧
    ((4 / 2 ≤ 2) ∧ (occlude onesT 4 4).val 0 2 0 0 = 0) :=
  ⟨⟨by decide, (claim_C6_amended_global_occluded_init (constPredict (1/10))
      onesT 4 4 0 1 0 0).1 (by decide)⟩,
   ⟨by decide, (claim_C6_amended_global_occluded_init (constPredict (1/10))
      onesT 4 4 0 2 0 0).2 (by decide)⟩⟩

/-- C7 counterexample: the batch dimension of `generate`'s result is not a
caller-chosen batch size — for the would-be caller-supplied batch size 50 the
claim fails, the result's batch dimension being the hardcoded 100. -/
theorem claim_C7_counterexample :
    (generate (constPredict (9/10)) 3 3).batch ≠ 50 := by
  have h := generate_shape (constPredict (9/10)) 3 3
  have h1 : (generate (constPredict (9/10)) 3 3).batch = 100 :=
    congrArg Prod.fst h
  rw [h1]
  norm_num

/-- C7 corrected: `generate` has no `batch_size` parameter; the returned
tensor's batch dimension is always the hardcoded 100 (coinciding with the
notebook's `batch_size` hyperparameter value), while the spatial dimensions
equal the given height and width and the channel dimension is 1. -/
theorem claim_C7_amended_hardcoded_batch (predict : Tensor4 → Tensor4)
    (height width : ℕ) :
    (generate predict height width).batch = 100 ∧
    (generate predict height width).height = height ∧
    (generate predict height width).width = width ∧
    (generate predict height width).channel = 1 := by
  have h := generate_shape predict height width
  exact ⟨congrArg Prod.fst h, congrArg (fun p => p.2.1) h,
    congrArg (fun p => p.2.2.1) h, congrArg (fun p => p.2.2.2) h⟩

/-- C9: on a 3×3 single-channel canvas, `generate` with a model that always
outputs probability 0.9 returns the all-ones image, and with a model that
always outputs 0.1 returns the all-zeros image (0.5 binarization
threshold). -/
theorem claim_C9_constant_model_scenarios (b i j ch : ℕ)
    (hi : i < 3) (hj : j < 3) :
    (generate (constPredict (9/10)) 3 3).val b i j ch = 1 ∧
    (generate (constPredict (1/10)) 3 3).val b i j ch = 0 := by
  have hb : i * 3 + j < 3 * 3 := by omega
  constructor
  · rw [generate_eq_genSteps, genSteps_val_written (constPredict (9/10)) 3
      (genInit 3 3) b i j ch hj (3 * 3) hb]
    show binarize (9/10) = 1
    norm_num [binarize]
  · rw [generate_eq_genSteps, genSteps_val_written (constPredict (1/10)) 3
      (genInit 3 3) b i j ch hj (3 * 3) hb]
    show binarize (1/10) = 0
    norm_num [binarize]

/-- Witness for C9 at the concrete pixel (2, 2). -/
theorem claim_C9_witness :
    ((2 < 3) ∧ (2 < 3)) ∧
    ((generate (constPredict (9/10)) 3 3).val 0 2 2 0 = 1 ∧
      (generate (constPredict (1/10)) 3 3).val 0 2 2 0 = 0) :=
  ⟨⟨by decide, by decide⟩,
    claim_C9_constant_model_scenarios 0 2 2 0 (by decide) (by decide)⟩

/-- C1: causality of the model.  For any two input canvases that agree at
every in-frame pixel strictly before `(i, j)` in raster order, the model
built by `pixelRNN` (one "A"-masked 7×7 convolution followed by only
"B"-masked 1×1 convolutions) produces the same output probability at
`(i, j)` — generation never depends on not-yet-finalized raster-later
pixels. -/
theorem claim_C1_causal_dependence (height width channel : ℕ)
    (params : NetParams) (W : ModelWeights) (sigmoid : ℚ → ℚ) (x y : Fmap)
    (i j : ℕ) (hi : i < height) (hj : j < width)
    (hagree : ∀ r c ch, r < height → c < width → rasterEarlier r c i j →
      x r c ch = y r c ch) :
    ∀ o, (pixelRNN height width channel params W sigmoid x).1 i j o =
      (pixelRNN height width channel params W sigmoid y).1 i j o := by
  intro o
  rw [pixelRNN_eq_stacks_general height width channel params W sigmoid x,
    pixelRNN_eq_stacks_general height width channel params W sigmoid y]
  exact congrArg sigmoid
    (conv2d_1x1_agree height width _ .B W.out_logits _ _ i j hi hj
      (outStackSpec_agree height width W.conv_out _ params.out_hidden_dims _ _
        i j hi hj
        (mainStackSpec_agree height width W.conv params.hidden_dims _ _ i j hi hj
          (conv2d_A_agree height width channel 7 7 W.conv_inputs x y i j hagree)
          params.recurrent_length)
        params.out_recurrent_length) o)

/-- Witness for C1: the all-zero canvas and a canvas that differs only on
rows 3 and below (all raster-later than pixel (1, 1)) give the same model
output at (1, 1). -/
theorem claim_C1_witness :
    ((1 < 4) ∧ (1 < 4) ∧
      (∀ r c ch, r < 4 → c < 4 → rasterEarlier r c 1 1 →
        xZero r c ch = yFuture r c ch)) ∧
    (∀ o, (pixelRNN 4 4 1 hp zeroModelW id xZero).1 1 1 o =
      (pixelRNN 4 4 1 hp zeroModelW id yFuture).1 1 1 o) :=
  ⟨⟨by decide, by decide, by
      intro r c ch h1 h2 h3
      unfold rasterEarlier at h3
      show (0 : ℚ) = if 3 ≤ r then 1 else 0
      rw [if_neg (by omega : ¬ 3 ≤ r)]⟩,
    claim_C1_causal_dependence 4 4 1 hp zeroModelW id xZero yFuture 1 1
      (by decide) (by decide)
      (by
        intro r c ch h1 h2 h3
        unfold rasterEarlier at h3
        show (0 : ℚ) = if 3 ≤ r then 1 else 0
        rw [if_neg (by omega : ¬ 3 ≤ r)])⟩

/-- C3: for every kernel size, the (spec-modelled) Mask Generator's output
equals the reference definition: the type-"B" mask is 1 at the center and at
every raster-earlier position and 0 at every raster-later position (all-ones
when kh = kw = 1), and the type-"A" mask is the type-"B" mask with the center
additionally zeroed. -/
theorem claim_C3_mask_equals_reference (kh kw a b : ℕ)
    (ha : a < kh) (hb : b < kw) :
    maskVal kh kw .B a b = refMaskB kh kw a b ∧
    maskVal kh kw .A a b = refMaskA kh kw a b ∧
    (kh = 1 → kw = 1 → maskVal kh kw .B a b = 1) := by
  refine ⟨?_, ?_, ?_⟩
  · show (if a < kh / 2 ∨ (a = kh / 2 ∧ b ≤ kw / 2) then (1 : ℚ) else 0) = _
    unfold refMaskB rasterEarlier
    split_ifs <;> first | rfl | omega
  · show (if a < kh / 2 ∨ (a = kh / 2 ∧ b < kw / 2) then (1 : ℚ) else 0) = _
    unfold refMaskA refMaskB rasterEarlier
    split_ifs <;> first | rfl | omega
  · intro h1 h2
    subst h1
    subst h2
    have ha0 : a = 0 := by omega
    have hb0 : b = 0 := by omega
    subst ha0
    subst hb0
    decide

/-- Witness for C3 at the 7×7 kernel position (3, 2). -/
theorem claim_C3_witness :
    ((3 < 7) ∧ (2 < 7)) ∧
    (maskVal 7 7 .B 3 2 = refMaskB 7 7 3 2 ∧
      maskVal 7 7 .A 3 2 = refMaskA 7 7 3 2 ∧
      (7 = 1 → 7 = 1 → maskVal 7 7 .B 3 2 = 1)) :=
  ⟨⟨by decide, by decide⟩,
    claim_C3_mask_equals_reference 7 7 3 2 (by decide) (by decide)⟩

/-- C4: the model applies, in this fixed order: one "A"-masked 7×7
convolution with `hidden_dims` output channels; then `recurrent_length`
"B"-masked 1×1 convolutions with 3 output channels and no activation
between them; then `out_recurrent_length` "B"-masked 1×1 convolutions with
`out_hidden_dims` output channels each followed by ReLU; then one "B"-masked
1×1 convolution producing the one-channel logits; and returns the
elementwise sigmoid of the logits as the per-pixel probability (paired with
the logits). -/
theorem claim_C4_architecture (height width channel : ℕ) (params : NetParams)
    (W : ModelWeights) (sigmoid : ℚ → ℚ) (x : Fmap)
    (hrec : params.recurrent_length ≠ 0)
    (hout : params.out_recurrent_length ≠ 0) :
    pixelRNN height width channel params W sigmoid x =
      (let conv_in := conv2d x height width channel 7 7 .A W.conv_inputs
       let main := mainStackSpec height width W.conv params.hidden_dims conv_in
         params.recurrent_length
       let outh := outStackSpec height width W.conv_out 3 params.out_hidden_dims
         main params.out_recurrent_length
       let logits := conv2d outh height width params.out_hidden_dims 1 1 .B
         W.out_logits
       (sigmoidT sigmoid logits, logits)) :=
  pixelRNN_eq_stacks height width channel params W sigmoid x hrec hout

/-- Witness for C4 at the notebook's hyperparameters with zero weights. -/
theorem claim_C4_witness :
    (hp.recurrent_length ≠ 0 ∧ hp.out_recurrent_length ≠ 0) ∧
    pixelRNN 3 3 1 hp zeroModelW id xZero =
      (let conv_in := conv2d xZero 3 3 1 7 7 .A zeroModelW.conv_inputs
       let main := mainStackSpec 3 3 zeroModelW.conv hp.hidden_dims conv_in
         hp.recurrent_length
       let outh := outStackSpec 3 3 zeroModelW.conv_out 3 hp.out_hidden_dims
         main hp.out_recurrent_length
       let logits := conv2d outh 3 3 hp.out_hidden_dims 1 1 .B
         zeroModelW.out_logits
       (sigmoidT id logits, logits)) :=
  ⟨⟨by decide, by decide⟩,
    claim_C4_architecture 3 3 1 hp zeroModelW id xZero (by decide) (by decide)⟩

/-- C8: the training loss is the mean over all batch elements and pixels of
the elementwise sigmoid cross-entropy between the logits and the true
binarized image, and `optim` hands the optimizer the gradients clipped
elementwise to `[-grad_clip, grad_clip]` (clip-then-apply); every gradient
entry the optimizer receives lies in that range. -/
theorem claim_C8_loss_and_clipping {α : Type} (xent : ℚ → ℚ → ℚ)
    (logits labels : Tensor4) (apply_gradients : List ((ℕ → ℚ) × ℕ) → α)
    (grad_clip : ℚ) (grads_and_vars : List ((ℕ → ℚ) × ℕ))
    (hc : 0 ≤ grad_clip) :
    lossT xent logits labels =
      (∑ b ∈ Finset.range logits.batch, ∑ i ∈ Finset.range logits.height,
        ∑ j ∈ Finset.range logits.width, ∑ c ∈ Finset.range logits.channel,
          xent (logits.val b i j c) (labels.val b i j c)) /
        ((logits.batch : ℚ) * logits.height * logits.width * logits.channel) ∧
    optim apply_gradients grad_clip grads_and_vars =
      apply_gradients (grads_and_vars.map
        (fun gv =>
          (fun k => clip_by_value (gv.1 k) (-grad_clip) grad_clip, gv.2))) ∧
    (∀ gv ∈ new_grads_and_vars grad_clip grads_and_vars, ∀ k,
      -grad_clip ≤ gv.1 k ∧ gv.1 k ≤ grad_clip) := by
  refine ⟨rfl, rfl, ?_⟩
  intro gv hgv k
  unfold new_grads_and_vars at hgv
  rw [List.mem_map] at hgv
  obtain ⟨gv0, -, rfl⟩ := hgv
  simp only [clip_by_value]
  constructor
  · exact le_min (le_max_right _ _) (by linarith)
  · exact min_le_right _ _

/-- Witness for C8 with the notebook's `grad_clip = 1`, a one-variable
gradient list and a concrete tensor. -/
theorem claim_C8_witness :
    ((0 : ℚ) ≤ p_grad_clip) ∧
    (lossT xentW zeroT1 zeroT1 =
      (∑ b ∈ Finset.range zeroT1.batch, ∑ i ∈ Finset.range zeroT1.height,
        ∑ j ∈ Finset.range zeroT1.width, ∑ c ∈ Finset.range zeroT1.channel,
          xentW (zeroT1.val b i j c) (zeroT1.val b i j c)) /
        ((zeroT1.batch : ℚ) * zeroT1.height * zeroT1.width * zeroT1.channel) ∧
      optim id p_grad_clip gvsW =
        id (gvsW.map
          (fun gv =>
            (fun k => clip_by_value (gv.1 k) (-p_grad_clip) p_grad_clip,
              gv.2))) ∧
      (∀ gv ∈ new_grads_and_vars p_grad_clip gvsW, ∀ k,
        -p_grad_clip ≤ gv.1 k ∧ gv.1 k ≤ p_grad_clip)) :=
  ⟨by norm_num [p_grad_clip],
    claim_C8_loss_and_clipping xentW zeroT1 zeroT1 id p_grad_clip gvsW
      (by norm_num [p_grad_clip])⟩

/-- C10: the input placeholder layout depends on `use_gpu` — with the flag
set it is `(batch, height, width, channel)`, without it
`(batch, channel, height, width)` — while the generation loops always feed a
`(100, height, width, 1)` canvas indexed with axis 1 as the row, so for the
notebook's 28×28 single-channel data the canvas fits the placeholder exactly
when `use_gpu` is true. -/
theorem claim_C10_layout_consistency (height width channel : ℕ) :
    input_shape true height width channel =
      [none, some height, some width, some channel] ∧
    input_shape false height width channel =
      [none, some channel, some height, some width] ∧
    (∀ g : Bool,
      shapeCompatible (input_shape g 28 28 1) (genCanvasShape 28 28) = g) := by
  refine ⟨rfl, rfl, ?_⟩
  intro g
  cases g <;> rfl

end PixelCNN
